import Mathlib

/-!
Verification of the vision-guided job-page discovery engine.

This file gives a shallow embedding, in Lean 4, of the decision logic of the
engine: the coordinate resolver (the bbox disambiguation heuristic and the
scroll-offset translation), the vision-response post-processing (code-fence
stripping and JSON parsing with schema validation), the action executor's
input action, the pagination exhauster loop of vision_pagination.py, and the
frontier/visited traversal loop of job_page_discovery.py.

Modelling conventions:
- Python strings are Lean `String`s; all character-level processing is done on
  `List Char` (the `data` of the string) with structural recursion, so that
  every definition evaluates inside the kernel.
- Python integers are `Int` (or `Nat` where the source value is a count or a
  size); Python `//` on non-negative operands is `Int.fdiv` (floor division).
- External collaborators (the Playwright page, the vision model, the OpenAI
  client, `urllib.parse.urljoin`) are inputs: either fields of an environment
  structure or explicit function arguments.  Wall-clock timestamps and debug
  screenshot files are side effects with no bearing on the returned values and
  are omitted.
- Python exception flow is `Option`/`Except`: a `none`/`.error` is an exception
  propagating to the nearest handler in the source.
-/

/-! ## String utilities (models of the Python string operations used) -/

/-- Characters treated as whitespace by Python `str.strip()` (the ASCII ones;
responses are ASCII). -/
def isPySpace (c : Char) : Bool :=
  c = ' ' || c = '\t' || c = '\n' || c = '\r' || c = '\x0b' || c = '\x0c'

/-- Python `str.strip()` on a character list: drop whitespace from both ends. -/
def pyStripL (l : List Char) : List Char :=
  ((l.dropWhile isPySpace).reverse.dropWhile isPySpace).reverse

/-- Python `str.strip()` on strings. -/
def pyStrip (s : String) : String :=
  ⟨pyStripL s.data⟩

/-- Python `str.find(needle)` on character lists: index of the first occurrence
of `needle`, `none` for Python's `-1`. -/
def pyFind (needle : List Char) : List Char → Option Nat
  | [] => if needle.isEmpty then some 0 else none
  | c :: t => if needle.isPrefixOf (c :: t) then some 0 else (pyFind needle t).map (· + 1)

/-- Python `str.rfind(needle)`: index of the last occurrence of `needle`. -/
def pyRFind (needle : List Char) : List Char → Option Nat
  | [] => if needle.isEmpty then some 0 else none
  | c :: t =>
    match pyRFind needle t with
    | some i => some (i + 1)
    | none => if needle.isPrefixOf (c :: t) then some 0 else none

/-- Python `str.find(needle, start)`: first occurrence at index `start` or
later. -/
def pyFindFrom (needle hay : List Char) (start : Nat) : Option Nat :=
  (pyFind needle (hay.drop start)).map (· + start)

/-- Python substring test `needle in hay`. -/
def pyContains (hay needle : String) : Bool :=
  (pyFind needle.data hay.data).isSome

/-- Python slice `hay[a:b]` (for `0 ≤ a ≤ b`, the only form the sources use). -/
def pySlice (l : List Char) (a b : Nat) : List Char :=
  (l.drop a).take (b - a)

/-- ASCII lower-casing of one character, as Python `str.lower()` does on the
ASCII responses the engine handles. -/
def lowerChar (c : Char) : Char :=
  if 'A' ≤ c && c ≤ 'Z' then Char.ofNat (c.toNat + 32) else c

/-- ASCII upper-casing of one character (Python `str.upper()`). -/
def upperChar (c : Char) : Char :=
  if 'a' ≤ c && c ≤ 'z' then Char.ofNat (c.toNat - 32) else c

/-- Python `str.lower()`. -/
def pyLower (s : String) : String :=
  ⟨s.data.map lowerChar⟩

/-- Python `str.upper()`. -/
def pyUpper (s : String) : String :=
  ⟨s.data.map upperChar⟩

/-- Python `str.split(sep)` for a one-character separator: splits into the
(possibly empty) segments between occurrences of `sep`. -/
def pySplitChar (sep : Char) : List Char → List (List Char)
  | [] => [[]]
  | c :: t =>
    match pySplitChar sep t with
    | [] => [[]]
    | seg :: rest => if c = sep then [] :: seg :: rest else (c :: seg) :: rest

/-- Decimal digit lists to numbers: `some n` when the list is non-empty and all
digits. -/
def digitsToNat : List Char → Option Nat
  | [] => none
  | [c] => if c.isDigit then some (c.toNat - '0'.toNat) else none
  | c :: t =>
    if c.isDigit then
      (digitsToNat t).map (fun n => (c.toNat - '0'.toNat) * 10 ^ t.length + n)
    else none

/-- Python `int(s)` for the decimal literals the engine meets: optional
surrounding whitespace, optional sign, digits; `none` is a `ValueError`. -/
def pyInt? (l : List Char) : Option Int :=
  match pyStripL l with
  | '-' :: ds => (digitsToNat ds).map (fun n => -(n : Int))
  | '+' :: ds => (digitsToNat ds).map (fun n => (n : Int))
  | ds => (digitsToNat ds).map (fun n => (n : Int))

/-! ## JSON values and a model of Python `json.loads`

The engine hands every vision-model response to `json.loads`.  `Json` is the
value universe; number literals are kept as their lexemes (the engine never
computes with a JSON number before converting it through its own arithmetic,
which the claims model separately over `Int`).  The parser is a fuel-indexed
recursive-descent reading of the JSON grammar as `json.loads` accepts it;
`\uXXXX` string escapes and the leading-zero restriction are not modelled
(no claim depends on them). -/

inductive Json where
  | null
  | bool (b : Bool)
  | num (lit : String)
  | str (s : String)
  | arr (elems : List Json)
  | obj (fields : List (String × Json))

/-- JSON insignificant whitespace. -/
def isJsonWs (c : Char) : Bool :=
  c = ' ' || c = '\t' || c = '\n' || c = '\r'

/-- Skip insignificant whitespace. -/
def skipJsonWs (l : List Char) : List Char :=
  l.dropWhile isJsonWs

/-- The character denoted by a one-character string escape. -/
def escChar? : Char → Option Char
  | '"' => some '"'
  | '\\' => some '\\'
  | '/' => some '/'
  | 'b' => some '\x08'
  | 'f' => some '\x0c'
  | 'n' => some '\n'
  | 'r' => some '\r'
  | 't' => some '\t'
  | _ => none

/-- Body of a JSON string after the opening quote: returns the decoded
characters and the input after the closing quote. -/
def parseStringBody : List Char → Option (List Char × List Char)
  | [] => none
  | '"' :: t => some ([], t)
  | '\\' :: e :: t =>
    match escChar? e with
    | some c => (parseStringBody t).map (fun p => (c :: p.1, p.2))
    | none => none
  | '\\' :: [] => none
  | c :: t => (parseStringBody t).map (fun p => (c :: p.1, p.2))

/-- Fractional part of a number literal, if present. -/
def parseFrac : List Char → Option (List Char × List Char)
  | '.' :: t =>
    let ds := t.takeWhile Char.isDigit
    if ds.isEmpty then none else some ('.' :: ds, t.dropWhile Char.isDigit)
  | l => some ([], l)

/-- Exponent part of a number literal, if present. -/
def parseExp : List Char → Option (List Char × List Char)
  | [] => some ([], [])
  | c :: t =>
    if c = 'e' || c = 'E' then
      match t with
      | [] => none
      | s :: t2 =>
        if s = '+' || s = '-' then
          let ds := t2.takeWhile Char.isDigit
          if ds.isEmpty then none else some (c :: s :: ds, t2.dropWhile Char.isDigit)
        else
          let ds := t.takeWhile Char.isDigit
          if ds.isEmpty then none else some (c :: ds, t.dropWhile Char.isDigit)
    else some ([], c :: t)

/-- A JSON number literal: optional minus sign, digits, optional fraction,
optional exponent; returns the lexeme and the rest of the input. -/
def parseNumLit (l : List Char) : Option (List Char × List Char) :=
  let sign : List Char × List Char :=
    match l with
    | '-' :: t => (['-'], t)
    | _ => ([], l)
  let ds := sign.2.takeWhile Char.isDigit
  if ds.isEmpty then none
  else
    match parseFrac (sign.2.dropWhile Char.isDigit) with
    | none => none
    | some (fr, l2) =>
      match parseExp l2 with
      | none => none
      | some (ex, l3) => some (sign.1 ++ ds ++ fr ++ ex, l3)

mutual

/-- A JSON value, by recursive descent over the remaining input. -/
def parseVal : Nat → List Char → Option (Json × List Char)
  | 0, _ => none
  | fuel + 1, l =>
    match skipJsonWs l with
    | 'n' :: 'u' :: 'l' :: 'l' :: t => some (Json.null, t)
    | 't' :: 'r' :: 'u' :: 'e' :: t => some (Json.bool true, t)
    | 'f' :: 'a' :: 'l' :: 's' :: 'e' :: t => some (Json.bool false, t)
    | '"' :: t => (parseStringBody t).map (fun p => (Json.str ⟨p.1⟩, p.2))
    | '[' :: t =>
      match skipJsonWs t with
      | ']' :: t2 => some (Json.arr [], t2)
      | t2 => (parseElems fuel t2).map (fun p => (Json.arr p.1, p.2))
    | '{' :: t =>
      match skipJsonWs t with
      | '}' :: t2 => some (Json.obj [], t2)
      | t2 => (parseMembers fuel t2).map (fun p => (Json.obj p.1, p.2))
    | l2 => (parseNumLit l2).map (fun p => (Json.num ⟨p.1⟩, p.2))

/-- The elements of a non-empty JSON array, up to and including the closing
bracket. -/
def parseElems : Nat → List Char → Option (List Json × List Char)
  | 0, _ => none
  | fuel + 1, l =>
    match parseVal fuel l with
    | none => none
    | some (j, rest) =>
      match skipJsonWs rest with
      | ',' :: t => (parseElems fuel t).map (fun p => (j :: p.1, p.2))
      | ']' :: t => some ([j], t)
      | _ => none

/-- The members of a non-empty JSON object, up to and including the closing
brace. -/
def parseMembers : Nat → List Char → Option (List (String × Json) × List Char)
  | 0, _ => none
  | fuel + 1, l =>
    match skipJsonWs l with
    | '"' :: t =>
      match parseStringBody t with
      | none => none
      | some (key, rest) =>
        match skipJsonWs rest with
        | ':' :: t2 =>
          match parseVal fuel t2 with
          | none => none
          | some (j, rest2) =>
            match skipJsonWs rest2 with
            | ',' :: t3 => (parseMembers fuel t3).map (fun p => ((⟨key⟩, j) :: p.1, p.2))
            | '}' :: t3 => some ([(⟨key⟩, j)], t3)
            | _ => none
        | _ => none
    | _ => none

end

/-- Python `json.loads`: parse one JSON value, rejecting trailing garbage;
`none` is a `json.JSONDecodeError`.  The fuel bounds the recursion depth and
is ample for any input of the given length. -/
def jsonLoads (s : String) : Option Json :=
  match parseVal (2 * s.data.length + 4) s.data with
  | some (j, rest) => if skipJsonWs rest = [] then some j else none
  | none => none

/-! ## Vision-response post-processing: code-fence stripping

Two variants occur in the sources.  `stripFencesSW` is the
startswith/rfind variant of `viewport_analyzer._parse_vision_response`
(lines 368-377) and `job_page_discovery._find_job_links_on_page`
(lines 609-618).  `stripFencesIF` is the in/find variant of
`job_page_discovery._find_job_navigation` (lines 191-200),
`_check_hidden_menus`, `_find_related_job_pages` and
`extract_bboxes._extract_viewport_bboxes` (lines 129-138). -/

/-- Fence stripping, startswith/rfind variant: if the response starts with a
fenced block marker, cut from just after the marker to the last fence
marker. -/
def stripFencesSW (s : String) : String :=
  let l := s.data
  if "```json".data.isPrefixOf l then
    let start := (pyFind "```json".data l).getD 0 + 7
    match pyRFind "```".data l with
    | some e => if start < e then ⟨pyStripL (pySlice l start e)⟩ else s
    | none => s
  else if "```".data.isPrefixOf l then
    let start := (pyFind "```".data l).getD 0 + 3
    match pyRFind "```".data l with
    | some e => if start < e then ⟨pyStripL (pySlice l start e)⟩ else s
    | none => s
  else s

/-- Fence stripping, in/find variant: if a fenced block marker occurs
anywhere, cut from just after it to the next fence marker. -/
def stripFencesIF (s : String) : String :=
  let l := s.data
  match pyFind "```json".data l with
  | some i =>
    let start := i + 7
    match pyFindFrom "```".data l start with
    | some e => if start < e then ⟨pyStripL (pySlice l start e)⟩ else s
    | none => s
  | none =>
    match pyFind "```".data l with
    | some i =>
      let start := i + 3
      match pyFindFrom "```".data l start with
      | some e => if start < e then ⟨pyStripL (pySlice l start e)⟩ else s
      | none => s
    | none => s

/-! ## Coordinate Resolver

From the click-position blocks of `job_page_discovery._find_job_navigation`
(lines 226-234), `_check_hidden_menus`, `_find_job_links_on_page` and
`simple_job_discovery._click_element` (lines 186-193): a 4-element bbox whose
3rd and 4th values both exceed 100 is read as corner form `[x1,y1,x2,y2]`,
any other 4-element bbox as origin+size form `[x,y,w,h]`; a bbox that is not
4 elements long makes the caller skip the element (`continue`). -/

/-- The click point for a model-reported bounding box. -/
def resolve_click_point (bbox : List Int) : Option (Int × Int) :=
  match bbox with
  | [b0, b1, b2, b3] =>
    if 100 < b2 ∧ 100 < b3 then
      some ((b0 + b2).fdiv 2, (b1 + b3).fdiv 2)
    else
      some (b0 + b2.fdiv 2, b1 + b3.fdiv 2)
  | _ => none

/-- Viewport-relative to page-absolute bbox, from
`extract_bboxes._extract_viewport_bboxes` lines 150-155: the scroll offset is
added to the 2nd and 4th entries only. -/
def resolve_absolute_position (bbox : List Int) (scroll : Int) : Option (List Int) :=
  match bbox with
  | b0 :: b1 :: b2 :: b3 :: _ => some [b0, b1 + scroll, b2, b3 + scroll]
  | _ => none

/-! ## Action Executor: the input action

From `viewport_analyzer._perform_input` (lines 193-224).  The page is
represented by the one observable the input claim concerns: `fieldValue`,
the value the input field holds after the click / select-all / type / wait
sequence.  The source performs those page calls fire-and-forget and builds
the returned dict from the request alone; the `ValueError`s it raises are
caught by `perform_action` (lines 154-160), hence the `Except`.  The
timestamp field is a wall-clock side effect and is omitted. -/

structure InputResult where
  success : Bool
  action_type : String
  coordinates : List Int
  bbox : List Int
  text : String

/-- The input action: validate the bbox and text, focus and type, and return
the result dict of lines 217-224. -/
def perform_input (fieldValue : String) (bbox : List Int) (text : String) :
    Except String InputResult :=
  match bbox with
  | [b0, b1, b2, b3] =>
    if text = "" then Except.error "text is required for input action"
    else
      Except.ok { success := true, action_type := "input",
                  coordinates := [b0 + b2.fdiv 2, b1 + b3.fdiv 2],
                  bbox := [b0, b1, b2, b3], text := text }
  | _ => Except.error "bbox must be [x, y, width, height]"

/-! ## Pagination Exhauster

From `vision_pagination.vision_detect_pagination` (lines 14-242).  The page
and the vision model are an environment: `pageHeight r` is the scroll height
read at the start of round `r`, `vision r i` the model's response at scan
stop `i` of round `r`, and `clickFound r i` whether
`document.elementFromPoint` finds an element there (when it does, the source
dispatches `element.click()` and the evaluate returns `success: true`; when
it does not, no click happens).  Rounds are indexed by the value of
`total_clicks` at their start — the source starts a new round exactly when
the previous one clicked once.  Scroll positions are the requested
`window.scrollTo` targets; debug screenshots and settle waits are side
effects and are omitted. -/

structure PagEnv where
  apiAvailable : Bool
  clientOk : Bool
  viewportW : Nat
  viewportH : Nat
  pageHeight : Nat → Nat
  vision : Nat → Nat → String
  clickFound : Nat → Nat → Bool

/-- Parse a `CLICK,x,y` response (lines 117-120): split on commas, demand
exactly three parts with the first upper-casing to CLICK and both
coordinates integers; `none` covers the caught ValueError/IndexError and the
silently skipped non-CLICK shapes. -/
def parseClick (s : String) : Option (Int × Int) :=
  match pySplitChar ',' (pyStripL s.data) with
  | [c, xs, ys] =>
    if pyUpper ⟨c⟩ = "CLICK" then
      match pyInt? xs, pyInt? ys with
      | some x, some y => some (x, y)
      | _, _ => none
    else none
  | _ => none

/-- One scan stop (lines 109-207): skip when the response contains "none"
case-insensitively (line 114), otherwise parse `CLICK,x,y`, check the
coordinates lie in the viewport (line 123), and click the element found at
that point, if any (lines 156-175).  `some (x, y)` is a dispatched click at
`(x, y)`; `none` covers every ignored shape: a "none" response, an
unparseable response, out-of-viewport coordinates, and no element at the
point. -/
def pagClicked (env : PagEnv) (r i : Nat) : Option (Int × Int) :=
  let resp := env.vision r i
  if pyContains (pyLower resp) "none" then none
  else
    match parseClick resp with
    | some (x, y) =>
      if 0 ≤ x ∧ x < (env.viewportW : Int) ∧ 0 ≤ y ∧ y < (env.viewportH : Int) then
        if env.clickFound r i then some (x, y) else none
      else none
    | none => none

/-- One scan round (the `for iteration in range(max_iterations)` loop, lines
55-221): run `pagClicked` at each stop.  A dispatched click ends the round
(`found_pagination = True; break`, lines 174-197); otherwise scrolling
advances by `step` until the end of the page (lines 210-217) or the
iteration ceiling.  Returns whether a click happened and the coordinates of
the dispatched clicks. -/
def pagScan (env : PagEnv) (r pageH step : Nat) :
    Nat → Nat → Nat → Bool × List (Int × Int)
  | 0, _, _ => (false, [])
  | fuel + 1, scroll, i =>
    match pagClicked env r i with
    | some xy => (true, [xy])
    | none =>
      if pageH ≤ scroll + step then (false, [])
      else pagScan env r pageH step fuel (scroll + step) (i + 1)

/-- Final loop state: total_clicks, the dispatched clicks, and the number of
rounds run. -/
structure PagOutcome where
  clicks : Nat
  log : List (Int × Int)
  rounds : Nat

/-- The hard ceiling on total_clicks (`max_clicks = 20`, line 28). -/
def maxClicks : Nat := 20

/-- The outer `while total_clicks < max_clicks` loop (lines 33-228).  Each
round scrolls to the top, re-reads the page height, computes the 75% scroll
step and the iteration ceiling `min(15, page_height // scroll_step + 2)`,
and scans; a round with a click starts the next round, a round without one
breaks.  A zero scroll step would be a ZeroDivisionError in the round setup,
caught at lines 48-52 (break).  The fuel only bounds the recursion for Lean:
every recursive call increments `clicks` and recursion requires
`clicks < maxClicks`, so from `(maxClicks + 1, 0)` the fuel is never
exhausted and the function is the unbounded while loop. -/
def pagLoop (env : PagEnv) : Nat → Nat → List (Int × Int) → Nat → PagOutcome
  | 0, clicks, log, rounds => ⟨clicks, log, rounds⟩
  | fuel + 1, clicks, log, rounds =>
    if clicks < maxClicks then
      let pageH := env.pageHeight clicks
      let step := 3 * env.viewportH / 4
      if step = 0 then ⟨clicks, log, rounds⟩
      else
        let sc := pagScan env clicks pageH step (min 15 (pageH / step + 2)) 0 0
        if sc.1 then pagLoop env fuel (clicks + 1) (log ++ sc.2) (rounds + 1)
        else ⟨clicks, log ++ sc.2, rounds + 1⟩
    else ⟨clicks, log, rounds⟩

/-- The pagination loop run from a fresh state. -/
def pagRun (env : PagEnv) : PagOutcome :=
  pagLoop env (maxClicks + 1) 0 [] 0

/-- The returned dict: `mode`, and `total_clicks` as an optional field —
`none` models the dicts at lines 17, 24, 237 and 241 that carry no
total_clicks key at all. -/
structure PagResult where
  mode : String
  total_clicks : Option Nat

/-- `vision_detect_pagination` (lines 14-242): guard on API availability and
client construction, run the loop, and return `{"mode": "vision_click",
"total_clicks": n}` when at least one click occurred, else
`{"mode": "none"}`. -/
def vision_detect_pagination (env : PagEnv) : PagResult :=
  if env.apiAvailable = false then ⟨"none", none⟩
  else if env.clientOk = false then ⟨"none", none⟩
  else if 0 < (pagRun env).clicks then ⟨"vision_click", some (pagRun env).clicks⟩
  else ⟨"none", none⟩

/-- Witness for C10: a run that dispatches exactly one click, at `(5, 7)`,
against a 1280x800 viewport. -/
def c10Env : PagEnv :=
  ⟨true, true, 1280, 800, fun _ => 2000,
   fun r _ => if r = 0 then "CLICK,5,7" else "NONE", fun _ _ => true⟩

/-- The C2 witness environment: 1280x800 viewport, constant page height,
constant `CLICK,100,200` response, element always found. -/
def c2Env : PagEnv :=
  ⟨true, true, 1280, 800, fun _ => 2000, fun _ _ => "CLICK,100,200", fun _ _ => true⟩

/-- The C6 environment: every response is the literal `NONE`. -/
def c6Env : PagEnv :=
  ⟨true, true, 1280, 800, fun _ => 2000, fun _ _ => "NONE", fun _ _ => false⟩

/-! ## Navigation Traversal Engine

From `JobPageDiscovery.discover_job_pages` (job_page_discovery.py lines
30-125).  What one dequeued visit does to the page — navigation, the
vision classification of `_verify_job_listing_page`, and the link discovery
of `_find_related_job_pages` / `_find_job_navigation` /
`_find_job_links_on_page` — is the environment, indexed by the number of
earlier visits: the classification and every link list those procedures
return depend only on vision responses and page state.  `VisitOut.fail` is
an exception inside the per-URL `try` (a goto timeout, or a KeyError on a
classification dict missing a required field), caught at lines 114-117:
the URL stays visited, nothing is recorded.  The `visited` set is kept as
the list of URLs in insertion order (each added once, so its length is the
set's size).  The flat element accumulation `all_discovered_elements`
happens inside the vision procedures abstracted by the environment and is
not modelled. -/

inductive VisitOut where
  | fail
  | job (confidence : Rat) (job_count : Nat) (page_type : String)
      (related : List String)
  | notJob (nav : List String) (jobLinks : List String)

structure DiscEnv where
  visit : Nat → VisitOut

/-- A recorded job page (lines 67-73): url, confidence, `job_count` with
default 0, `page_type` with default "unknown", and depth. -/
structure PageRecord where
  url : String
  confidence : Rat
  job_count : Nat
  page_type : String
  depth : Nat

structure DiscState where
  visited : List String
  jobPages : List PageRecord
  frontier : List (String × Nat)

/-- `MAX_PAGES_TO_EXPLORE = 50` (line 17). -/
def maxPagesToExplore : Nat := 50

/-- `MAX_DEPTH = 3` (line 18). -/
def maxDepth : Nat := 3

/-- One iteration of the exploration loop (lines 49-117): pop the frontier
head; skip it outright when the URL is already visited or its depth exceeds
the maximum (line 51); otherwise mark it visited and visit it, recording a
job page and enqueuing its related links at depth+1, or enqueuing the
navigation and job links of a non-job page at depth+1 — each link only if
not already visited at push time. -/
def discoverStep (env : DiscEnv) (st : DiscState) : DiscState :=
  match st.frontier with
  | [] => st
  | (url, depth) :: rest =>
    if url ∈ st.visited ∨ maxDepth < depth then
      { st with frontier := rest }
    else
      let visited2 := st.visited ++ [url]
      match env.visit st.visited.length with
      | VisitOut.fail => { visited := visited2, jobPages := st.jobPages, frontier := rest }
      | VisitOut.job conf cnt ptype related =>
        { visited := visited2,
          jobPages := st.jobPages ++ [⟨url, conf, cnt, ptype, depth⟩],
          frontier := rest
            ++ (related.filter (fun l => l ∉ visited2)).map (fun l => (l, depth + 1)) }
      | VisitOut.notJob nav jobLinks =>
        { visited := visited2,
          jobPages := st.jobPages,
          frontier := rest
            ++ (nav.filter (fun l => l ∉ visited2)).map (fun l => (l, depth + 1))
            ++ (jobLinks.filter (fun l => l ∉ visited2)).map (fun l => (l, depth + 1)) }

/-- The `while pages_to_explore and len(self.visited_urls) <
MAX_PAGES_TO_EXPLORE` loop (line 48). -/
def discoverLoop (env : DiscEnv) (st : DiscState) : DiscState :=
  if h : st.frontier ≠ [] ∧ st.visited.length < maxPagesToExplore then
    discoverLoop env (discoverStep env st)
  else st
termination_by (maxPagesToExplore - st.visited.length, st.frontier.length)
decreasing_by
  have hmeasure :
      ((discoverStep env st).visited = st.visited
        ∧ (discoverStep env st).frontier.length < st.frontier.length)
    ∨ st.visited.length < (discoverStep env st).visited.length := by
    unfold discoverStep
    cases hf : st.frontier with
    | nil => exact absurd hf h.1
    | cons hd rest =>
      obtain ⟨url, depth⟩ := hd
      by_cases hm : url ∈ st.visited ∨ maxDepth < depth
      · left
        simp [hm]
      · right
        cases hv : env.visit st.visited.length <;> simp [hm, hv]
  rcases hmeasure with ⟨h1, h2⟩ | h1
  · rw [h1]
    exact Prod.Lex.right _ h2
  · exact Prod.Lex.left _ _ (by omega)

/-- The fields of the returned dict (lines 119-125) that the claims concern;
`discovered_elements` and its count live inside the vision procedures the
environment abstracts. -/
structure DiscoveryResult where
  job_pages : List PageRecord
  total_pages_explored : Nat
  total_job_pages_found : Nat

/-- `discover_job_pages`: explore from the initial navigation links, each at
depth 0 (line 45), and report. -/
def discover_job_pages (env : DiscEnv) (startLinks : List String) : DiscoveryResult :=
  let final := discoverLoop env ⟨[], [], startLinks.map (fun l => (l, 0))⟩
  ⟨final.jobPages, final.visited.length, final.jobPages.length⟩

/-- The C3 witness environment: every visit classifies as non-job and finds
no links. -/
def c3Env : DiscEnv :=
  ⟨fun _ => VisitOut.notJob [] []⟩

/-- Witness environment and state for C7: the frontier head is already
visited. -/
def c7Env : DiscEnv :=
  ⟨fun _ => VisitOut.fail⟩

/-- Witness state for C7. -/
def c7St : DiscState :=
  ⟨["https://ex.example"], [], [("https://ex.example", 0)]⟩

/-! ## Vision Query Client: schema validation and the two element-discovery
pipelines

From `viewport_analyzer._parse_vision_response` / `_validate_element`
(lines 364-420) and `job_page_discovery._find_job_links_on_page`
(lines 566-662). -/

/-- Python dict field access on a parsed JSON object; a later duplicate key
overwrites an earlier one, as in `json.loads`.  `none` on a missing key or a
non-dict is the KeyError/TypeError the sources catch. -/
def Json.getField? (j : Json) (key : String) : Option Json :=
  match j with
  | Json.obj fields => (fields.reverse.find? (fun f => f.1 == key)).map (fun f => f.2)
  | _ => none

/-- A non-negative JSON number in the sense of `isinstance(x, (int, float))
and x >= 0` — a Python bool is an int instance, so `true`/`false` pass (a
negative-signed literal is read from its lexeme). -/
def jsonNonNegNum : Json → Bool
  | Json.num lit => !(lit.data.head? == some '-')
  | Json.bool _ => true
  | _ => false

/-- `_validate_element` (lines 401-420): the four required fields must be
present, the type drawn from the fixed enumeration, and the bbox a
4-element array of non-negative numbers.  `false` is the ValueError the
validation raises (or the TypeError of a non-dict element), caught by the
query's outer handler. -/
def validateElement (e : Json) : Bool :=
  match e.getField? "type", e.getField? "label",
      e.getField? "bbox", e.getField? "semantic_role" with
  | some t, some _, some b, some _ =>
    (match t with
     | Json.str s => s == "button" || s == "input" || s == "link" || s == "clickable"
     | _ => false)
    && (match b with
        | Json.arr bs => bs.length == 4 && bs.all jsonNonNegNum
        | _ => false)
  | _, _, _, _ => false

/-- `_parse_vision_response` (lines 364-399): strip fences, `json.loads`,
then demand a JSON object with an `elements` list whose every element
validates; `.error` is the ValueError raised (the source messages are
abbreviated). -/
def parse_vision_response (response : String) : Except String Json :=
  match jsonLoads (stripFencesSW response) with
  | none => Except.error "Invalid JSON response"
  | some j =>
    match j with
    | Json.obj _ =>
      match j.getField? "elements" with
      | some (Json.arr elems) =>
        if elems.all validateElement then Except.ok j
        else Except.error "element failed validation"
      | some _ => Except.error "elements must be a list"
      | none => Except.error "Response must contain elements field"
    | _ => Except.error "Response must be a JSON object"

/-- The elements list of a validated response. -/
def analysisElements (j : Json) : List Json :=
  match j.getField? "elements" with
  | some (Json.arr elems) => elems
  | _ => []

/-- The analysis result as its consumers see it: `analyze_viewport_screenshot`
(lines 39-112) returns the parsed fields on success, and on any exception the
error dict of lines 102-107, which carries no elements key — consumers read
elements with a defaulting get, so the error result's element list is
empty. -/
structure AnalysisResult where
  success : Bool
  elements : List Json
  error : Option String

/-- The response-processing tail of `analyze_viewport_screenshot`: parse and
validate, converting the raised ValueError into the error result — no
exception escapes the query. -/
def analyze_viewport_response (response : String) : AnalysisResult :=
  match parse_vision_response response with
  | Except.ok j => ⟨true, analysisElements j, none⟩
  | Except.error m => ⟨false, [], some m⟩

/-- An integer-valued JSON number (the pixel coordinates the prompts
request); a fractional literal is not modelled. -/
def jsonInt? : Json → Option Int
  | Json.num lit => pyInt? lit.data
  | _ => none

/-- The element loop of `_find_job_links_on_page` (lines 624-652): for each
element take its bbox (a missing key or non-dict element is the
KeyError/TypeError the outer handler turns into `[]` — the `none` result),
skip it unless the bbox has exactly 4 entries, resolve the click point, look
up the DOM element underneath and read its link target, and collect
`urljoin(page.url, href)` for the elements that have one. -/
def elementLinks (hrefAt : Int → Int → Option String)
    (urljoin : String → String → String) (pageUrl : String) :
    List Json → Option (List String)
  | [] => some []
  | e :: rest =>
    match e.getField? "bbox" with
    | none => none
    | some (Json.arr bs) =>
      if bs.length = 4 then
        match bs.mapM jsonInt? with
        | some nums =>
          match resolve_click_point nums, elementLinks hrefAt urljoin pageUrl rest with
          | some (cx, cy), some tail =>
            match hrefAt cx cy with
            | some href => some (urljoin pageUrl href :: tail)
            | none => some tail
          | _, _ => none
        | none => none
      else elementLinks hrefAt urljoin pageUrl rest
    | some _ => none

/-- `_find_job_links_on_page` (lines 566-662): strip the response, strip
fences, `json.loads` — a parse failure returns `[]` (line 657) — then run
the element loop; any exception it raises is caught by the outer handler,
which also returns `[]` (lines 659-662).  Iterating a non-list parse result
raises in the loop body and lands in the same handler. -/
def find_job_links_on_page (hrefAt : Int → Int → Option String)
    (urljoin : String → String → String) (pageUrl : String)
    (response : String) : List String :=
  match jsonLoads (stripFencesSW (pyStrip response)) with
  | none => []
  | some (Json.arr elems) => (elementLinks hrefAt urljoin pageUrl elems).getD []
  | some _ => []

/-! ### Claim C9: fenced responses -/

/-- A response wrapping a payload in a fenced block with the json language
tag. -/
def wrapJsonFence (payload : String) : String :=
  "```json\n" ++ payload ++ "\n```"

/-- A response wrapping a payload in a fenced block without a language
tag. -/
def wrapPlainFence (payload : String) : String :=
  "```\n" ++ payload ++ "\n```"

/-! ## Lemmas and claim theorems -/

/-- Claim C1: for every 4-element bounding box, the click-point resolution
returns the corner-form center `((x1+x2)/2, (y1+y2)/2)` when the 3rd and 4th
values both exceed 100, and otherwise (when `w ≤ 100` or `h ≤ 100`) the
origin+size center `(x+w/2, y+h/2)` (Python `//` is floor division). -/
theorem c1_resolve_click_point (b0 b1 b2 b3 : Int) :
    (100 < b2 → 100 < b3 →
      resolve_click_point [b0, b1, b2, b3] = some ((b0 + b2).fdiv 2, (b1 + b3).fdiv 2))
  ∧ (b2 ≤ 100 ∨ b3 ≤ 100 →
      resolve_click_point [b0, b1, b2, b3] = some (b0 + b2.fdiv 2, b1 + b3.fdiv 2)) := by
  constructor
  · intro h2 h3
    simp only [resolve_click_point]
    rw [if_pos ⟨h2, h3⟩]
  · intro h
    simp only [resolve_click_point]
    rw [if_neg (by omega)]

/-- Witness for C1 at concrete boxes: `[10,20,110,120]` is corner form with
center `(60,70)`; `[10,20,80,30]` is origin+size form with center `(50,35)`. -/
theorem c1_resolve_click_point_witness :
    resolve_click_point [10, 20, 110, 120] = some (60, 70)
  ∧ resolve_click_point [10, 20, 80, 30] = some (50, 35) :=
  ⟨(c1_resolve_click_point 10 20 110 120).1 (by decide) (by decide),
   (c1_resolve_click_point 10 20 80 30).2 (Or.inl (by decide))⟩

/-- Claim C8: converting a viewport-relative box to a page-absolute box adds
the scroll offset to the 2nd and 4th values only, leaving the 1st and 3rd
unchanged. -/
theorem c8_resolve_absolute_position (b0 b1 b2 b3 scroll : Int) :
    ∃ r, resolve_absolute_position [b0, b1, b2, b3] scroll = some r ∧
      r[0]? = some b0 ∧ r[2]? = some b2 ∧
      r[1]? = some (b1 + scroll) ∧ r[3]? = some (b3 + scroll) ∧ r.length = 4 :=
  ⟨[b0, b1 + scroll, b2, b3 + scroll], rfl, rfl, rfl, rfl, rfl, rfl⟩

/-- Counterexample to claim C4: the input action's result is the same whether
or not the field ends up holding the requested text.  With requested text
"hello" but an actual post-typing field value "wrong", the result still
reports success, and is identical to the result when the field does hold
"hello" — so the result cannot be reporting whether the field value equals
the requested text. -/
theorem c4_counterexample :
    perform_input "wrong" [10, 20, 100, 30] "hello"
      = perform_input "hello" [10, 20, 100, 30] "hello"
  ∧ (perform_input "wrong" [10, 20, 100, 30] "hello").toOption.map InputResult.success
      = some true :=
  ⟨rfl, rfl⟩

/-- Claim C4 (amended): after typing, the input action does not re-read the
field's value; for every valid 4-element bbox and non-empty text it returns
`success := true` unconditionally with the requested text echoed back, and
the result is independent of the actual field value. -/
theorem c4_perform_input_no_verification (v w : String) (b0 b1 b2 b3 : Int)
    (text : String) (htext : text ≠ "") :
    perform_input v [b0, b1, b2, b3] text
      = Except.ok { success := true, action_type := "input",
                    coordinates := [b0 + b2.fdiv 2, b1 + b3.fdiv 2],
                    bbox := [b0, b1, b2, b3], text := text }
  ∧ perform_input v [b0, b1, b2, b3] text = perform_input w [b0, b1, b2, b3] text := by
  simp [perform_input, htext]

/-- Witness for the amended C4 at a concrete input: with field values "abc"
and "zzz" the input action returns the same (successful) result. -/
theorem c4_perform_input_no_verification_witness :
    ("x" : String) ≠ ""
  ∧ perform_input "abc" [1, 2, 10, 10] "x" = perform_input "zzz" [1, 2, 10, 10] "x" :=
  ⟨by decide, (c4_perform_input_no_verification "abc" "zzz" 1 2 10 10 "x" (by decide)).2⟩

/-! ### Pagination lemmas -/

/-- A dispatched click carries in-viewport coordinates. -/
theorem pagClicked_bounds (env : PagEnv) (r i : Nat) (xy : Int × Int)
    (h : pagClicked env r i = some xy) :
    0 ≤ xy.1 ∧ xy.1 < (env.viewportW : Int) ∧ 0 ≤ xy.2 ∧ xy.2 < (env.viewportH : Int) := by
  simp only [pagClicked] at h
  split at h
  · exact absurd h (by simp)
  · split at h
    · rename_i x y _
      split at h
      · rename_i hb
        split at h
        · cases h
          exact hb
        · exact absurd h (by simp)
      · exact absurd h (by simp)
    · exact absurd h (by simp)

/-- A response containing "none" (case-insensitively) dispatches no click. -/
theorem pagClicked_of_contains_none (env : PagEnv) (r i : Nat)
    (h : pyContains (pyLower (env.vision r i)) "none" = true) :
    pagClicked env r i = none := by
  simp only [pagClicked, h]
  rfl

/-- Reduction of a scan stop that dispatches a click. -/
theorem pagScan_succ_some (env : PagEnv) (r pageH step fuel scroll i : Nat)
    (xy : Int × Int) (hc : pagClicked env r i = some xy) :
    pagScan env r pageH step (fuel + 1) scroll i = (true, [xy]) := by
  rw [pagScan, hc]

/-- Reduction of a scan stop that dispatches no click. -/
theorem pagScan_succ_none (env : PagEnv) (r pageH step fuel scroll i : Nat)
    (hc : pagClicked env r i = none) :
    pagScan env r pageH step (fuel + 1) scroll i =
      if pageH ≤ scroll + step then (false, [])
      else pagScan env r pageH step fuel (scroll + step) (i + 1) := by
  rw [pagScan, hc]

/-- Every click a scan round dispatches is in-viewport, and a round
dispatches one click when it hits and none otherwise. -/
theorem pagScan_sound (env : PagEnv) (r pageH step : Nat) :
    ∀ fuel scroll i,
      (∀ xy ∈ (pagScan env r pageH step fuel scroll i).2,
          0 ≤ xy.1 ∧ xy.1 < (env.viewportW : Int) ∧ 0 ≤ xy.2 ∧ xy.2 < (env.viewportH : Int))
    ∧ (pagScan env r pageH step fuel scroll i).2.length
        = (if (pagScan env r pageH step fuel scroll i).1 then 1 else 0) := by
  intro fuel
  induction fuel with
  | zero =>
    intro scroll i
    exact ⟨by intro xy hxy; simp [pagScan] at hxy, by simp [pagScan]⟩
  | succ n ih =>
    intro scroll i
    cases hc : pagClicked env r i with
    | some xy =>
      rw [pagScan_succ_some env r pageH step n scroll i xy hc]
      refine ⟨?_, rfl⟩
      intro z hz
      have hz2 : z = xy := by simpa using hz
      subst hz2
      exact pagClicked_bounds env r i z hc
    | none =>
      rw [pagScan_succ_none env r pageH step n scroll i hc]
      by_cases hend : pageH ≤ scroll + step
      · rw [if_pos hend]
        exact ⟨by intro xy hxy; simp at hxy, by simp⟩
      · rw [if_neg hend]
        exact ih (scroll + step) (i + 1)

/-- Loop invariant: total_clicks equals the number of dispatched clicks, and
every dispatched click is in-viewport. -/
theorem pagLoop_inv (env : PagEnv) :
    ∀ fuel clicks log rounds, clicks = log.length →
      (∀ xy ∈ log, 0 ≤ xy.1 ∧ xy.1 < (env.viewportW : Int)
          ∧ 0 ≤ xy.2 ∧ xy.2 < (env.viewportH : Int)) →
      (pagLoop env fuel clicks log rounds).clicks
        = (pagLoop env fuel clicks log rounds).log.length
    ∧ ∀ xy ∈ (pagLoop env fuel clicks log rounds).log,
        0 ≤ xy.1 ∧ xy.1 < (env.viewportW : Int) ∧ 0 ≤ xy.2 ∧ xy.2 < (env.viewportH : Int) := by
  intro fuel
  induction fuel with
  | zero => intro clicks log rounds hlen hmem; exact ⟨hlen, hmem⟩
  | succ n ih =>
    intro clicks log rounds hlen hmem
    simp only [pagLoop]
    by_cases hc : clicks < maxClicks
    · rw [if_pos hc]
      by_cases hstep : 3 * env.viewportH / 4 = 0
      · rw [if_pos hstep]
        exact ⟨hlen, hmem⟩
      · rw [if_neg hstep]
        have hs := pagScan_sound env clicks (env.pageHeight clicks) (3 * env.viewportH / 4)
          (min 15 (env.pageHeight clicks / (3 * env.viewportH / 4) + 2)) 0 0
        set sc := pagScan env clicks (env.pageHeight clicks) (3 * env.viewportH / 4)
          (min 15 (env.pageHeight clicks / (3 * env.viewportH / 4) + 2)) 0 0 with hscdef
        have hmem2 : ∀ xy ∈ log ++ sc.2, 0 ≤ xy.1 ∧ xy.1 < (env.viewportW : Int)
            ∧ 0 ≤ xy.2 ∧ xy.2 < (env.viewportH : Int) := by
          intro xy hxy
          rcases List.mem_append.mp hxy with h | h
          · exact hmem xy h
          · exact hs.1 xy h
        by_cases hhit : sc.1
        · rw [if_pos hhit]
          refine ih (clicks + 1) (log ++ sc.2) (rounds + 1) ?_ hmem2
          rw [List.length_append, ← hlen, hs.2, if_pos hhit]
        · rw [if_neg hhit]
          refine ⟨?_, hmem2⟩
          have h0 : sc.2.length = 0 := by rw [hs.2, if_neg hhit]
          simp only [List.length_append, h0]
          omega
    · rw [if_neg hc]
      exact ⟨hlen, hmem⟩

/-- Claim C10: the pagination exhauster never issues a click outside the
viewport — a click is dispatched only at model-reported coordinates with
`0 ≤ x < viewport width` and `0 ≤ y < viewport height`, total_clicks counts
exactly the dispatched clicks (an out-of-bounds report, an unparseable
report, or a report with no element at the point leaves it unchanged), and
the total_clicks the returned dict carries, when present, is that same
count. -/
theorem c10_pagination_click_safety (env : PagEnv) :
    (∀ xy ∈ (pagRun env).log,
        0 ≤ xy.1 ∧ xy.1 < (env.viewportW : Int) ∧ 0 ≤ xy.2 ∧ xy.2 < (env.viewportH : Int))
  ∧ (pagRun env).clicks = (pagRun env).log.length
  ∧ ∀ n, (vision_detect_pagination env).total_clicks = some n →
      n = (pagRun env).log.length := by
  have h := pagLoop_inv env (maxClicks + 1) 0 [] 0 rfl (by intro xy hxy; simp at hxy)
  refine ⟨h.2, h.1, ?_⟩
  intro n hn
  unfold vision_detect_pagination at hn
  split at hn
  · exact absurd hn (by simp)
  · split at hn
    · exact absurd hn (by simp)
    · split at hn
      · cases hn
        exact h.1
      · exact absurd hn (by simp)

/-- Witness for C10 at `c10Env`: the dispatched click `(5, 7)` is in
bounds. -/
theorem c10_pagination_click_safety_witness :
    ((5 : Int), (7 : Int)) ∈ (pagRun c10Env).log
  ∧ (0 ≤ (5 : Int) ∧ (5 : Int) < ((1280 : Nat) : Int)
      ∧ 0 ≤ (7 : Int) ∧ (7 : Int) < ((800 : Nat) : Int))
  ∧ 1 = (pagRun c10Env).log.length :=
  ⟨by decide, (c10_pagination_click_safety c10Env).1 (5, 7) (by decide),
   (c10_pagination_click_safety c10Env).2.2 1 rfl⟩

/-- With the constant response `CLICK,100,200`, an in-bounds viewport and an
element always found at the point, every scan stop dispatches the click. -/
theorem pagClicked_click_100_200 (env : PagEnv) (r i : Nat)
    (hW : 100 < env.viewportW) (hH : 200 < env.viewportH)
    (hv : env.vision r i = "CLICK,100,200") (hf : env.clickFound r i = true) :
    pagClicked env r i = some (100, 200) := by
  simp only [pagClicked, hv, hf]
  have h1 : pyContains (pyLower "CLICK,100,200") "none" = false := rfl
  have h2 : parseClick "CLICK,100,200" = some (100, 200) := rfl
  rw [h1, h2]
  simp only [Bool.false_eq_true, if_false]
  rw [if_pos ⟨by decide, by exact_mod_cast hW, by decide, by exact_mod_cast hH⟩]
  rfl

/-- Under the C2 hypotheses the outer loop runs the click count up to the
ceiling, one click per round. -/
theorem pagLoop_click_100_200 (env : PagEnv)
    (hW : 100 < env.viewportW) (hH : 200 < env.viewportH)
    (hv : ∀ r i, env.vision r i = "CLICK,100,200")
    (hf : ∀ r i, env.clickFound r i = true) :
    ∀ fuel clicks log rounds, clicks + fuel = maxClicks + 1 → clicks ≤ maxClicks →
      pagLoop env fuel clicks log rounds
        = ⟨maxClicks, log ++ List.replicate (maxClicks - clicks) (100, 200),
           rounds + (maxClicks - clicks)⟩ := by
  intro fuel
  induction fuel with
  | zero =>
    intro clicks log rounds hfuel hle
    exact absurd hfuel (by omega)
  | succ n ih =>
    intro clicks log rounds hfuel hle
    by_cases hc : clicks < maxClicks
    · have hstep : ¬ 3 * env.viewportH / 4 = 0 := by omega
      simp only [pagLoop, if_pos hc, if_neg hstep]
      have hmin : 0 < min 15 (env.pageHeight clicks / (3 * env.viewportH / 4) + 2) :=
        lt_min (by norm_num) (Nat.succ_pos _)
      obtain ⟨k, hk⟩ :
          ∃ k, min 15 (env.pageHeight clicks / (3 * env.viewportH / 4) + 2) = k + 1 :=
        ⟨min 15 (env.pageHeight clicks / (3 * env.viewportH / 4) + 2) - 1,
         (Nat.succ_pred_eq_of_pos hmin).symm⟩
      rw [hk, pagScan_succ_some env clicks (env.pageHeight clicks) (3 * env.viewportH / 4)
            k 0 0 (100, 200) (pagClicked_click_100_200 env clicks 0 hW hH (hv clicks 0) (hf clicks 0))]
      simp only [if_true]
      rw [ih (clicks + 1) (log ++ [(100, 200)]) (rounds + 1) (by omega) (by omega)]
      have hrep : (100, 200) :: List.replicate (maxClicks - (clicks + 1)) ((100 : Int), (200 : Int))
          = List.replicate (maxClicks - clicks) ((100 : Int), (200 : Int)) := by
        rw [← List.replicate_succ]
        congr 1
        omega
      rw [List.append_assoc, List.singleton_append, hrep]
      congr 1
      omega
    · have heq : clicks = maxClicks := by omega
      simp only [pagLoop, if_neg hc]
      rw [heq]
      simp

/-- Claim C2: with every vision query reporting `CLICK,100,200`, the click
coordinates inside the viewport, and every click finding an element, the
pagination exhauster terminates after exactly 20 clicks (the total_clicks
ceiling) and returns mode "vision_click" with total_clicks 20 — one click
per round, 20 rounds. -/
theorem c2_pagination_ceiling (env : PagEnv)
    (hapi : env.apiAvailable = true) (hcl : env.clientOk = true)
    (hW : 100 < env.viewportW) (hH : 200 < env.viewportH)
    (hv : ∀ r i, env.vision r i = "CLICK,100,200")
    (hf : ∀ r i, env.clickFound r i = true) :
    vision_detect_pagination env = ⟨"vision_click", some 20⟩
  ∧ (pagRun env).clicks = 20 ∧ (pagRun env).rounds = 20
  ∧ (pagRun env).log.length = 20 := by
  have hrun : pagRun env = ⟨maxClicks, List.replicate maxClicks (100, 200), maxClicks⟩ := by
    unfold pagRun
    rw [pagLoop_click_100_200 env hW hH hv hf (maxClicks + 1) 0 [] 0 rfl (by omega)]
    simp
  have h20 : maxClicks = 20 := rfl
  refine ⟨?_, by rw [hrun, h20], by rw [hrun, h20], by rw [hrun]; simp [h20]⟩
  unfold vision_detect_pagination
  rw [hapi, hcl, hrun]
  simp [h20]

/-- Witness for C2 at `c2Env`. -/
theorem c2_pagination_ceiling_witness :
    (100 < (1280 : Nat) ∧ 200 < (800 : Nat))
  ∧ vision_detect_pagination c2Env = ⟨"vision_click", some 20⟩ :=
  ⟨⟨by decide, by decide⟩,
   (c2_pagination_ceiling c2Env rfl rfl (by decide) (by decide)
      (fun _ _ => rfl) (fun _ _ => rfl)).1⟩

/-- A scan round all of whose responses contain "none" dispatches nothing. -/
theorem pagScan_all_none (env : PagEnv) (r pageH step : Nat)
    (hv : ∀ i, pyContains (pyLower (env.vision r i)) "none" = true) :
    ∀ fuel scroll i, pagScan env r pageH step fuel scroll i = (false, []) := by
  intro fuel
  induction fuel with
  | zero => intro scroll i; rfl
  | succ n ih =>
    intro scroll i
    rw [pagScan_succ_none env r pageH step n scroll i (pagClicked_of_contains_none env r i (hv i))]
    by_cases hend : pageH ≤ scroll + step
    · rw [if_pos hend]
    · rw [if_neg hend]
      exact ih (scroll + step) (i + 1)

/-- Claim C6 (amended): when every vision query of the first round reports
`NONE`, the exhauster scans the page once and returns `{"mode": "none"}` —
a dict that carries no total_clicks key at all (`total_clicks := none` in the
model); no click is dispatched and exactly one round runs. -/
theorem c6_pagination_none_scan (env : PagEnv)
    (hapi : env.apiAvailable = true) (hcl : env.clientOk = true)
    (hH : 2 ≤ env.viewportH)
    (hv : ∀ i, pyContains (pyLower (env.vision 0 i)) "none" = true) :
    vision_detect_pagination env = ⟨"none", none⟩
  ∧ (pagRun env).clicks = 0 ∧ (pagRun env).log = [] ∧ (pagRun env).rounds = 1 := by
  have hstep : ¬ 3 * env.viewportH / 4 = 0 := by omega
  have hrun : pagRun env = ⟨0, [], 1⟩ := by
    unfold pagRun
    have hc : 0 < maxClicks := by decide
    simp only [pagLoop, if_pos hc, if_neg hstep]
    rw [pagScan_all_none env 0 (env.pageHeight 0) (3 * env.viewportH / 4) hv
          (min 15 (env.pageHeight 0 / (3 * env.viewportH / 4) + 2)) 0 0]
    simp
  refine ⟨?_, by rw [hrun], by rw [hrun], by rw [hrun]⟩
  unfold vision_detect_pagination
  rw [hapi, hcl, hrun]
  simp

/-- Counterexample to claim C6 as stated: on a page whose every vision query
reports `NONE`, the exhauster does return mode "none", but the returned dict
is `{"mode": "none"}` with no total_clicks key (line 237 of
vision_pagination.py), not `{mode: "none", total_clicks: 0}`. -/
theorem c6_counterexample :
    (vision_detect_pagination c6Env).mode = "none"
  ∧ (vision_detect_pagination c6Env).total_clicks ≠ some 0 :=
  ⟨rfl, by decide⟩

/-- Witness for the amended C6 at `c6Env`. -/
theorem c6_pagination_none_scan_witness :
    (2 ≤ (800 : Nat)) ∧ vision_detect_pagination c6Env = ⟨"none", none⟩ :=
  ⟨by decide, (c6_pagination_none_scan c6Env rfl rfl (by decide) (fun _ => rfl)).1⟩

/-- Each loop iteration either leaves `visited` unchanged and shortens the
frontier (a skipped dequeue) or grows `visited`. -/
theorem discoverStep_measure (env : DiscEnv) (st : DiscState)
    (h : st.frontier ≠ [] ∧ st.visited.length < maxPagesToExplore) :
    ((discoverStep env st).visited = st.visited
      ∧ (discoverStep env st).frontier.length < st.frontier.length)
  ∨ st.visited.length < (discoverStep env st).visited.length := by
  unfold discoverStep
  match hf : st.frontier with
  | [] => exact absurd hf h.1
  | (url, depth) :: rest =>
    by_cases hm : url ∈ st.visited ∨ maxDepth < depth
    · left
      simp [hm]
    · right
      cases hv : env.visit st.visited.length <;> simp [hm, hv]

/-- Any property preserved by one iteration holds for the loop's result. -/
theorem discoverLoop_invariant (env : DiscEnv) (P : DiscState → Prop)
    (hstep : ∀ st, st.frontier ≠ [] → st.visited.length < maxPagesToExplore →
      P st → P (discoverStep env st)) :
    ∀ st, P st → P (discoverLoop env st) := by
  intro st
  induction st using discoverLoop.induct env with
  | case1 st h ih =>
    intro hp
    rw [discoverLoop, dif_pos h]
    exact ih (hstep st h.1 h.2 hp)
  | case2 st h =>
    intro hp
    rw [discoverLoop, dif_neg h]
    exact hp

/-- Claim C3: with a classifier that always reports a non-job page and no
job-related elements ever discovered, a run started at depth 0 terminates
(the loop function is total) with zero job pages found and at most the page
cap explored. -/
theorem c3_no_job_pages (env : DiscEnv) (startLinks : List String)
    (hv : ∀ k, env.visit k = VisitOut.notJob [] []) :
    (discover_job_pages env startLinks).total_job_pages_found = 0
  ∧ (discover_job_pages env startLinks).total_pages_explored ≤ maxPagesToExplore := by
  have hinv := discoverLoop_invariant env
    (fun st => st.jobPages = [] ∧ st.visited.length ≤ maxPagesToExplore)
    (by
      intro st hne hlt hp
      unfold discoverStep
      match hf : st.frontier with
      | [] => exact hp
      | (url, depth) :: rest =>
        by_cases hm : url ∈ st.visited ∨ maxDepth < depth
        · simpa [hm] using hp
        · simp [hm, hv st.visited.length]
          exact ⟨hp.1, by omega⟩)
    ⟨[], [], startLinks.map (fun l => (l, 0))⟩ ⟨rfl, by simp⟩
  unfold discover_job_pages
  exact ⟨by simp [hinv.1], hinv.2⟩

/-- Witness for C3 at a concrete two-link start frontier. -/
theorem c3_no_job_pages_witness :
    (discover_job_pages c3Env ["https://ex.example", "https://ex.example/about"]).total_job_pages_found = 0
  ∧ (discover_job_pages c3Env ["https://ex.example", "https://ex.example/about"]).total_pages_explored
      ≤ maxPagesToExplore :=
  c3_no_job_pages c3Env ["https://ex.example", "https://ex.example/about"] (fun _ => rfl)

/-- Claim C7: dequeuing an already-visited URL is a no-op — the state change
is exactly dropping that frontier entry, with no visit consumed, no record
added and no frontier entries pushed — and across a whole run the visited
list stays duplicate-free (its length is the number of distinct URLs
visited) and only grows. -/
theorem c7_revisit_noop_visited_monotone :
    (∀ (env : DiscEnv) (st : DiscState) (url : String) (depth : Nat)
        (rest : List (String × Nat)),
      st.frontier = (url, depth) :: rest → url ∈ st.visited →
      discoverStep env st = { st with frontier := rest })
  ∧ ∀ (env : DiscEnv) (st : DiscState), st.visited.Nodup →
      (discoverLoop env st).visited.Nodup
      ∧ st.visited ⊆ (discoverLoop env st).visited := by
  constructor
  · intro env st url depth rest hf hm
    unfold discoverStep
    rw [hf]
    simp [hm]
  · intro env st hnd
    exact discoverLoop_invariant env
      (fun s => s.visited.Nodup ∧ st.visited ⊆ s.visited)
      (by
        intro s hne hlt hp
        unfold discoverStep
        match hf : s.frontier with
        | [] => exact hp
        | (url, depth) :: rest =>
          by_cases hm : url ∈ s.visited ∨ maxDepth < depth
          · simpa [hm] using hp
          · have hnotmem : url ∉ s.visited := fun hmem => hm (Or.inl hmem)
            have hnd2 : (s.visited ++ [url]).Nodup := by
              simp [List.nodup_append, hp.1, hnotmem]
            have hsub2 : st.visited ⊆ s.visited ++ [url] :=
              hp.2.trans (List.subset_append_left _ _)
            cases hv : env.visit s.visited.length <;> simp [hm, hv] <;>
              exact ⟨hnd2, hsub2⟩)
      st ⟨hnd, fun x hx => hx⟩

/-- Witness for C7: the already-visited head is dropped with nothing else
changed, and from a duplicate-free visited list the run keeps it
duplicate-free and only grows it. -/
theorem c7_revisit_noop_visited_monotone_witness :
    discoverStep c7Env c7St = { c7St with frontier := [] }
  ∧ (discoverLoop c7Env c7St).visited.Nodup :=
  ⟨(c7_revisit_noop_visited_monotone).1 c7Env c7St "https://ex.example" 0 [] rfl
      (by decide),
   ((c7_revisit_noop_visited_monotone).2 c7Env c7St (by decide)).1⟩

/-- Claim C5: a syntactically invalid JSON response makes the
element-discovery query yield an empty element list and raise nothing: the
job-link discovery returns `[]` outright, and the viewport analysis returns
the error result — a total function value, not an exception — whose element
list is empty, so the enclosing traversal loop is never aborted. -/
theorem c5_invalid_json_empty (response : String)
    (hrefAt : Int → Int → Option String) (urljoin : String → String → String)
    (pageUrl : String) :
    (jsonLoads (stripFencesSW (pyStrip response)) = none →
      find_job_links_on_page hrefAt urljoin pageUrl response = [])
  ∧ (jsonLoads (stripFencesSW response) = none →
      (analyze_viewport_response response).success = false
      ∧ (analyze_viewport_response response).elements = []) := by
  constructor
  · intro h
    unfold find_job_links_on_page
    rw [h]
  · intro h
    unfold analyze_viewport_response parse_vision_response
    rw [h]
    exact ⟨rfl, rfl⟩

/-- Witness for C5 at a concrete free-text response that is not JSON. -/
theorem c5_invalid_json_empty_witness :
    jsonLoads (stripFencesSW (pyStrip "Sorry, I cannot find any elements.")) = none
  ∧ find_job_links_on_page (fun _ _ => none) (fun _ b => b) "https://ex.example"
      "Sorry, I cannot find any elements." = []
  ∧ (analyze_viewport_response "Sorry, I cannot find any elements.").elements = [] :=
  ⟨rfl,
   (c5_invalid_json_empty "Sorry, I cannot find any elements."
      (fun _ _ => none) (fun _ b => b) "https://ex.example").1 rfl,
   ((c5_invalid_json_empty "Sorry, I cannot find any elements."
      (fun _ _ => none) (fun _ b => b) "https://ex.example").2 rfl).2⟩

/-! ### Occurrence lemmas for the fence strippers -/

/-- A needle that is a prefix is found at index 0. -/
theorem pyFind_zero_of_starts (n l : List Char) (hn : n ≠ [])
    (h : n.isPrefixOf l = true) : pyFind n l = some 0 := by
  cases l with
  | nil =>
    cases n with
    | nil => exact absurd rfl hn
    | cons c t => simp [List.isPrefixOf] at h
  | cons c t =>
    unfold pyFind
    rw [if_pos h]

/-- `pyFind` misses exactly when the needle is a prefix of no suffix. -/
theorem pyFind_eq_none_iff (n : List Char) (hn : n ≠ []) :
    ∀ l, pyFind n l = none ↔ ∀ j, n.isPrefixOf (l.drop j) = false := by
  intro l
  induction l with
  | nil =>
    obtain ⟨c, t, rfl⟩ := List.exists_cons_of_ne_nil hn
    simp [pyFind, List.isPrefixOf]
  | cons c t ih =>
    unfold pyFind
    by_cases hpre : n.isPrefixOf (c :: t) = true
    · rw [if_pos hpre]
      constructor
      · intro h
        exact absurd h (by simp)
      · intro h
        have := h 0
        simp only [List.drop_zero] at this
        rw [hpre] at this
        cases this
    · rw [if_neg hpre]
      constructor
      · intro h j
        have ht : pyFind n t = none := by
          cases hft : pyFind n t with
          | none => rfl
          | some k => rw [hft] at h; simp at h
        cases j with
        | zero =>
          simp only [List.drop_zero]
          exact Bool.not_eq_true _ ▸ (by simpa using hpre)
        | succ j2 =>
          simpa using (ih.mp ht) j2
      · intro h
        have ht : pyFind n t = none := by
          rw [ih]
          intro j
          simpa using h (j + 1)
        rw [ht]
        rfl

/-- Missing the bigger needle follows from missing a prefix of it. -/
theorem pyFind_none_mono (n n2 l : List Char) (hn : n ≠ [])
    (hpre : n <+: n2) (h : pyFind n l = none) : pyFind n2 l = none := by
  have hn2 : n2 ≠ [] := by
    intro heq
    subst heq
    exact hn (List.prefix_nil.mp hpre)
  rw [pyFind_eq_none_iff n2 hn2]
  intro j
  by_contra hc
  have h2 : n2 <+: l.drop j :=
    List.isPrefixOf_iff_prefix.mp (by simpa using hc)
  have h3 : n.isPrefixOf (l.drop j) = true :=
    List.isPrefixOf_iff_prefix.mpr (hpre.trans h2)
  have := (pyFind_eq_none_iff n hn l).mp h j
  rw [h3] at this
  cases this

/-- A newline-free needle matching at the head of `u ++ '\n' :: r` matches at
the head of `u`. -/
theorem prefix_through_newline (n u r : List Char) (hnl : '\n' ∉ n)
    (h : n.isPrefixOf (u ++ '\n' :: r) = true) : n.isPrefixOf u = true := by
  have hp : n <+: u ++ '\n' :: r := List.isPrefixOf_iff_prefix.mp h
  have hu : u <+: u ++ '\n' :: r := List.prefix_append u _
  rcases List.prefix_or_prefix_of_prefix hp hu with h1 | h1
  · exact List.isPrefixOf_iff_prefix.mpr h1
  · obtain ⟨n2, rfl⟩ := h1
    have h2 : n2 <+: '\n' :: r := (List.prefix_append_right_inj u).mp hp
    cases n2 with
    | nil =>
      exact List.isPrefixOf_iff_prefix.mpr (by simp)
    | cons c t =>
      obtain ⟨rest, heq⟩ := h2
      have hc : c = '\n' := by
        have h3 := congrArg (fun l => l.head?) heq
        simpa using h3
      subst hc
      exact absurd (by simp : '\n' ∈ u ++ '\n' :: t) hnl

/-- One step of `pyFind` past a non-matching head. -/
theorem pyFind_cons_step (n : List Char) (c : Char) (t : List Char)
    (h : n.isPrefixOf (c :: t) = false) :
    pyFind n (c :: t) = (pyFind n t).map (· + 1) := by
  conv_lhs => rw [pyFind]
  rw [h]
  simp

/-- Scanning for a newline-free needle absent from `m` passes through
`m ++ '\n' :: r` to the trailing part. -/
theorem pyFind_append_newline (n : List Char) (hn : n ≠ []) (hnl : '\n' ∉ n) :
    ∀ m r, pyFind n m = none →
      pyFind n (m ++ '\n' :: r) = (pyFind n ('\n' :: r)).map (· + m.length) := by
  intro m
  induction m with
  | nil =>
    intro r _
    simp
  | cons c m2 ih =>
    intro r hm
    have hsplit : n.isPrefixOf (c :: m2) = false ∧ pyFind n m2 = none := by
      unfold pyFind at hm
      by_cases hpre : n.isPrefixOf (c :: m2) = true
      · rw [if_pos hpre] at hm
        cases hm
      · rw [if_neg hpre] at hm
        refine ⟨Bool.eq_false_iff.mpr hpre, ?_⟩
        cases hft : pyFind n m2 with
        | none => rfl
        | some k => rw [hft] at hm; simp at hm
    have hpre2 : n.isPrefixOf (c :: (m2 ++ '\n' :: r)) = false := by
      by_cases hp2 : n.isPrefixOf (c :: (m2 ++ '\n' :: r)) = true
      · have h4 := prefix_through_newline n (c :: m2) r hnl hp2
        rw [hsplit.1] at h4
        cases h4
      · exact Bool.eq_false_iff.mpr hp2
    have hcons : (c :: m2) ++ '\n' :: r = c :: (m2 ++ '\n' :: r) := rfl
    rw [hcons, pyFind_cons_step n c (m2 ++ '\n' :: r) hpre2, ih r hsplit.2]
    cases hfr : pyFind n ('\n' :: r) with
    | none => rfl
    | some k =>
      show some (k + m2.length + 1) = some (k + (c :: m2).length)
      rw [List.length_cons]
      exact congrArg some (Nat.add_assoc k m2.length 1)

/-- The last fence marker in `m ++ "\n```"` is the closing one. -/
theorem pyRFind_append_fence :
    ∀ m : List Char, pyRFind "```".data (m ++ "\n```".data) = some (m.length + 1) := by
  intro m
  induction m with
  | nil => rfl
  | cons c m2 ih =>
    have hcons : (c :: m2) ++ "\n```".data = c :: (m2 ++ "\n```".data) := rfl
    rw [hcons]
    unfold pyRFind
    rw [ih]
    simp

/-! ### Stripping lemmas -/

/-- A list fixed by `pyStripL` is fixed by each of its two dropWhile
passes. -/
theorem dropWhile_fixed_of_pyStripL_fixed (l : List Char) (h : pyStripL l = l) :
    l.dropWhile isPySpace = l ∧ l.reverse.dropWhile isPySpace = l.reverse := by
  have hsuf1 : l.dropWhile isPySpace <:+ l := List.dropWhile_suffix _
  have hlen1 : (l.dropWhile isPySpace).length ≤ l.length := hsuf1.length_le
  have hlen2 : ((l.dropWhile isPySpace).reverse.dropWhile isPySpace).length
      ≤ (l.dropWhile isPySpace).length := by
    simpa using (List.dropWhile_suffix (l := (l.dropWhile isPySpace).reverse)
      (p := isPySpace)).length_le
  have hlen3 : (pyStripL l).length
      = ((l.dropWhile isPySpace).reverse.dropWhile isPySpace).length := by
    simp [pyStripL]
  have hlen4 : (pyStripL l).length = l.length := by rw [h]
  have hd1 : l.dropWhile isPySpace = l :=
    hsuf1.eq_of_length (by omega)
  have h2 : (l.reverse.dropWhile isPySpace).reverse = l := by
    have h3 : pyStripL l = (l.reverse.dropWhile isPySpace).reverse := by
      rw [pyStripL, hd1]
    rw [← h3, h]
  refine ⟨hd1, ?_⟩
  have h4 := congrArg List.reverse h2
  simpa using h4

/-- Stripping undoes the newline wrapping the fence extraction leaves around
an already-stripped payload. -/
theorem pyStripL_newline_wrap (l : List Char) (h : pyStripL l = l) :
    pyStripL ('\n' :: (l ++ ['\n'])) = l := by
  obtain ⟨hd, hr⟩ := dropWhile_fixed_of_pyStripL_fixed l h
  cases l with
  | nil => rfl
  | cons c t =>
    have hc : isPySpace c = false := by
      by_cases hsp : isPySpace c = true
      · exfalso
        rw [List.dropWhile_cons, if_pos hsp] at hd
        have h5 := congrArg List.length hd
        have hle : (t.dropWhile isPySpace).length ≤ t.length :=
          (List.dropWhile_suffix _).length_le
        simp at h5
        omega
      · simpa using hsp
    unfold pyStripL
    rw [List.dropWhile_cons, if_pos (show isPySpace '\n' = true from rfl)]
    have hcons : (c :: t) ++ ['\n'] = c :: (t ++ ['\n']) := rfl
    rw [hcons, List.dropWhile_cons, hc]
    simp only [Bool.false_eq_true, if_false]
    rw [← hcons, List.reverse_append]
    simp only [List.reverse_singleton, List.singleton_append]
    rw [List.dropWhile_cons, if_pos (show isPySpace '\n' = true from rfl), hr,
      List.reverse_reverse]

/-- The slice the fence extraction takes out of a wrapped payload. -/
theorem pySlice_wrap (A C : List Char) (hA : 0 < A.length)
    (hd : A.drop (A.length - 1) = ['\n']) :
    pySlice (A ++ (C ++ '\n' :: "```".data)) (A.length - 1) (A.length + C.length + 1)
      = '\n' :: (C ++ ['\n']) := by
  unfold pySlice
  rw [List.drop_append_eq_append_drop, hd]
  have h0 : A.length - 1 - A.length = 0 := by omega
  rw [h0, List.drop_zero]
  have h1 : A.length + C.length + 1 - (A.length - 1) = C.length + 1 + 1 := by omega
  rw [h1, List.singleton_append, List.take_succ_cons, List.take_append_eq_append_take,
    List.take_of_length_le (by omega), show C.length + 1 - C.length = 1 by omega]
  rfl

/-- Character decomposition of the json-tagged wrapping. -/
theorem wrapJson_data (C : String) :
    (wrapJsonFence C).data = "```json\n".data ++ (C.data ++ "\n```".data) := by
  simp [wrapJsonFence, String.data_append, List.append_assoc]

/-- Character decomposition of the untagged wrapping. -/
theorem wrapPlain_data (C : String) :
    (wrapPlainFence C).data = "```\n".data ++ (C.data ++ "\n```".data) := by
  simp [wrapPlainFence, String.data_append, List.append_assoc]

/-- The startswith/rfind variant recovers a stripped payload from the
json-tagged wrapping. -/
theorem stripSW_wrapJson (C : String) (hStr : pyStrip C = C) :
    stripFencesSW (wrapJsonFence C) = C := by
  have hstrip : pyStripL C.data = C.data := congrArg String.data hStr
  have hdata := wrapJson_data C
  have hpre : "```json".data.isPrefixOf (wrapJsonFence C).data = true := by
    rw [hdata]
    have h1 : "```json".data <+: "```json\n".data := ⟨['\n'], by decide⟩
    exact List.isPrefixOf_iff_prefix.mpr (h1.trans (List.prefix_append _ _))
  have hfind : pyFind "```json".data (wrapJsonFence C).data = some 0 :=
    pyFind_zero_of_starts _ _ (by decide) hpre
  have hrfind : pyRFind "```".data (wrapJsonFence C).data
      = some (("```json\n".data ++ C.data).length + 1) := by
    rw [hdata, ← List.append_assoc]
    exact pyRFind_append_fence _
  have hl8 : ("```json\n".data).length = 8 := rfl
  have hlen8 : ("```json\n".data ++ C.data).length = C.data.length + 8 := by
    rw [List.length_append, hl8]
    omega
  simp only [stripFencesSW]
  rw [hpre]
  simp only [if_true]
  rw [hfind, hrfind]
  simp only [Option.getD_some]
  rw [hlen8, if_pos (by omega : 0 + 7 < C.data.length + 8 + 1)]
  have hslice : pySlice (wrapJsonFence C).data (0 + 7) (C.data.length + 8 + 1)
      = '\n' :: (C.data ++ ['\n']) := by
    rw [hdata]
    have h7 : (0 + 7 : Nat) = "```json\n".data.length - 1 := by decide
    have h9 : C.data.length + 8 + 1 = "```json\n".data.length + C.data.length + 1 := by
      rw [hl8]
      omega
    rw [h7, h9]
    exact pySlice_wrap "```json\n".data C.data (by decide) (by decide)
  rw [hslice, pyStripL_newline_wrap C.data hstrip]

/-- The startswith/rfind variant recovers a stripped payload from the
untagged wrapping. -/
theorem stripSW_wrapPlain (C : String) (hStr : pyStrip C = C) :
    stripFencesSW (wrapPlainFence C) = C := by
  have hstrip : pyStripL C.data = C.data := congrArg String.data hStr
  have hdata := wrapPlain_data C
  have hnot7 : "```json".data.isPrefixOf (wrapPlainFence C).data = false := by
    rw [hdata]
    rfl
  have hpre3 : "```".data.isPrefixOf (wrapPlainFence C).data = true := by
    rw [hdata]
    have h1 : "```".data <+: "```\n".data := ⟨['\n'], by decide⟩
    exact List.isPrefixOf_iff_prefix.mpr (h1.trans (List.prefix_append _ _))
  have hfind : pyFind "```".data (wrapPlainFence C).data = some 0 :=
    pyFind_zero_of_starts _ _ (by decide) hpre3
  have hrfind : pyRFind "```".data (wrapPlainFence C).data
      = some (("```\n".data ++ C.data).length + 1) := by
    rw [hdata, ← List.append_assoc]
    exact pyRFind_append_fence _
  have hl4 : ("```\n".data).length = 4 := rfl
  have hlen4 : ("```\n".data ++ C.data).length = C.data.length + 4 := by
    rw [List.length_append, hl4]
    omega
  simp only [stripFencesSW]
  rw [hnot7]
  simp only [Bool.false_eq_true, if_false]
  rw [hpre3]
  simp only [if_true]
  rw [hfind, hrfind]
  simp only [Option.getD_some]
  rw [hlen4, if_pos (by omega : 0 + 3 < C.data.length + 4 + 1)]
  have hslice : pySlice (wrapPlainFence C).data (0 + 3) (C.data.length + 4 + 1)
      = '\n' :: (C.data ++ ['\n']) := by
    rw [hdata]
    have h3 : (0 + 3 : Nat) = "```\n".data.length - 1 := by decide
    have h5 : C.data.length + 4 + 1 = "```\n".data.length + C.data.length + 1 := by
      rw [hl4]
      omega
    rw [h3, h5]
    exact pySlice_wrap "```\n".data C.data (by decide) (by decide)
  rw [hslice, pyStripL_newline_wrap C.data hstrip]

/-- A fence-free unwrapped payload passes through the startswith/rfind
variant unchanged. -/
theorem stripSW_no_fence (C : String) (hNo : pyContains C "```" = false) :
    stripFencesSW C = C := by
  have hfind : pyFind "```".data C.data = none := by
    cases hf : pyFind "```".data C.data with
    | none => rfl
    | some k =>
      unfold pyContains at hNo
      rw [hf] at hNo
      simp at hNo
  have hnot3 : "```".data.isPrefixOf C.data = false := by
    by_cases hp : "```".data.isPrefixOf C.data = true
    · rw [pyFind_zero_of_starts _ _ (by decide) hp] at hfind
      cases hfind
    · exact Bool.eq_false_iff.mpr hp
  have hnot7 : "```json".data.isPrefixOf C.data = false := by
    by_cases hp : "```json".data.isPrefixOf C.data = true
    · have h1 : "```".data <+: "```json".data := ⟨"json".data, by decide⟩
      have h2 : "```".data.isPrefixOf C.data = true :=
        List.isPrefixOf_iff_prefix.mpr (h1.trans (List.isPrefixOf_iff_prefix.mp hp))
      rw [hnot3] at h2
      cases h2
    · exact Bool.eq_false_iff.mpr hp
  simp only [stripFencesSW]
  rw [hnot7]
  simp only [Bool.false_eq_true, if_false]
  rw [hnot3]
  simp only [Bool.false_eq_true, if_false]

/-- A fence-free unwrapped payload passes through the in/find variant
unchanged. -/
theorem stripIF_no_fence (C : String) (hNo : pyContains C "```" = false) :
    stripFencesIF C = C := by
  have hfind3 : pyFind "```".data C.data = none := by
    cases hf : pyFind "```".data C.data with
    | none => rfl
    | some k =>
      unfold pyContains at hNo
      rw [hf] at hNo
      simp at hNo
  have hfind7 : pyFind "```json".data C.data = none :=
    pyFind_none_mono "```".data "```json".data C.data (by decide)
      ⟨"json".data, by decide⟩ hfind3
  simp only [stripFencesIF]
  rw [hfind7, hfind3]

/-- The in/find variant recovers a fence-free stripped payload from the
json-tagged wrapping. -/
theorem stripIF_wrapJson (C : String) (hNo : pyContains C "```" = false)
    (hStr : pyStrip C = C) : stripFencesIF (wrapJsonFence C) = C := by
  have hstrip : pyStripL C.data = C.data := congrArg String.data hStr
  have hfind3C : pyFind "```".data C.data = none := by
    cases hf : pyFind "```".data C.data with
    | none => rfl
    | some k =>
      unfold pyContains at hNo
      rw [hf] at hNo
      simp at hNo
  have hdata := wrapJson_data C
  have hpre : "```json".data.isPrefixOf (wrapJsonFence C).data = true := by
    rw [hdata]
    have h1 : "```json".data <+: "```json\n".data := ⟨['\n'], by decide⟩
    exact List.isPrefixOf_iff_prefix.mpr (h1.trans (List.prefix_append _ _))
  have hfind7 : pyFind "```json".data (wrapJsonFence C).data = some 0 :=
    pyFind_zero_of_starts _ _ (by decide) hpre
  have hdrop : (wrapJsonFence C).data.drop 7 = '\n' :: (C.data ++ "\n```".data) := by
    rw [hdata, List.drop_append_eq_append_drop]
    rw [show "```json\n".data.drop 7 = ['\n'] from rfl,
      show 7 - ("```json\n".data).length = 0 from rfl, List.drop_zero,
      List.singleton_append]
  have hffrom : pyFindFrom "```".data (wrapJsonFence C).data 7
      = some (C.data.length + 9) := by
    unfold pyFindFrom
    rw [hdrop]
    rw [pyFind_cons_step "```".data '\n' (C.data ++ "\n```".data) rfl]
    rw [show ("\n```".data : List Char) = '\n' :: "```".data from rfl,
      pyFind_append_newline "```".data (by decide) (by decide) C.data _ hfind3C]
    rw [show pyFind "```".data ('\n' :: "```".data) = some 1 from rfl]
    show some (1 + C.data.length + 1 + 7) = some (C.data.length + 9)
    exact congrArg some (by omega)
  have hslice : pySlice (wrapJsonFence C).data 7 (C.data.length + 9)
      = '\n' :: (C.data ++ ['\n']) := by
    rw [hdata]
    have hl8 : ("```json\n".data).length = 8 := rfl
    have h7 : (7 : Nat) = "```json\n".data.length - 1 := by decide
    have h9 : C.data.length + 9 = "```json\n".data.length + C.data.length + 1 := by
      rw [hl8]
      omega
    rw [h7, h9]
    exact pySlice_wrap "```json\n".data C.data (by decide) (by decide)
  simp only [stripFencesIF, hfind7, Nat.zero_add, hffrom]
  rw [if_pos (by omega : 7 < C.data.length + 9)]
  rw [hslice, pyStripL_newline_wrap C.data hstrip]

/-- The in/find variant recovers a fence-free stripped payload from the
untagged wrapping. -/
theorem stripIF_wrapPlain (C : String) (hNo : pyContains C "```" = false)
    (hStr : pyStrip C = C) : stripFencesIF (wrapPlainFence C) = C := by
  have hstrip : pyStripL C.data = C.data := congrArg String.data hStr
  have hfind3C : pyFind "```".data C.data = none := by
    cases hf : pyFind "```".data C.data with
    | none => rfl
    | some k =>
      unfold pyContains at hNo
      rw [hf] at hNo
      simp at hNo
  have hfind7C : pyFind "```json".data C.data = none :=
    pyFind_none_mono "```".data "```json".data C.data (by decide)
      ⟨"json".data, by decide⟩ hfind3C
  have hdata := wrapPlain_data C
  have hsplit : (wrapPlainFence C).data
      = "```".data ++ ('\n' :: (C.data ++ "\n```".data)) := by
    rw [hdata]
    rfl
  have hfind7 : pyFind "```json".data (wrapPlainFence C).data = none := by
    rw [hsplit,
      pyFind_append_newline "```json".data (by decide) (by decide) "```".data _
        (by rfl)]
    rw [pyFind_cons_step "```json".data '\n' (C.data ++ "\n```".data) rfl]
    rw [show ("\n```".data : List Char) = '\n' :: "```".data from rfl,
      pyFind_append_newline "```json".data (by decide) (by decide) C.data _ hfind7C]
    rw [show pyFind "```json".data ('\n' :: "```".data) = none from rfl]
    rfl
  have hpre3 : "```".data.isPrefixOf (wrapPlainFence C).data = true := by
    rw [hdata]
    have h1 : "```".data <+: "```\n".data := ⟨['\n'], by decide⟩
    exact List.isPrefixOf_iff_prefix.mpr (h1.trans (List.prefix_append _ _))
  have hfind3 : pyFind "```".data (wrapPlainFence C).data = some 0 :=
    pyFind_zero_of_starts _ _ (by decide) hpre3
  have hdrop : (wrapPlainFence C).data.drop 3 = '\n' :: (C.data ++ "\n```".data) := by
    rw [hdata, List.drop_append_eq_append_drop]
    rw [show "```\n".data.drop 3 = ['\n'] from rfl,
      show 3 - ("```\n".data).length = 0 from rfl, List.drop_zero,
      List.singleton_append]
  have hffrom : pyFindFrom "```".data (wrapPlainFence C).data 3
      = some (C.data.length + 5) := by
    unfold pyFindFrom
    rw [hdrop]
    rw [pyFind_cons_step "```".data '\n' (C.data ++ "\n```".data) rfl]
    rw [show ("\n```".data : List Char) = '\n' :: "```".data from rfl,
      pyFind_append_newline "```".data (by decide) (by decide) C.data _ hfind3C]
    rw [show pyFind "```".data ('\n' :: "```".data) = some 1 from rfl]
    show some (1 + C.data.length + 1 + 3) = some (C.data.length + 5)
    exact congrArg some (by omega)
  have hslice : pySlice (wrapPlainFence C).data 3 (C.data.length + 5)
      = '\n' :: (C.data ++ ['\n']) := by
    rw [hdata]
    have hl4 : ("```\n".data).length = 4 := rfl
    have h3 : (3 : Nat) = "```\n".data.length - 1 := by decide
    have h5 : C.data.length + 5 = "```\n".data.length + C.data.length + 1 := by
      rw [hl4]
      omega
    rw [h3, h5]
    exact pySlice_wrap "```\n".data C.data (by decide) (by decide)
  simp only [stripFencesIF, hfind7, hfind3, Nat.zero_add, hffrom]
  rw [if_pos (by omega : 3 < C.data.length + 5)]
  rw [hslice, pyStripL_newline_wrap C.data hstrip]

/-- Counterexample to claim C9 as stated ("for every payload string"): a
payload that itself contains fence markers parses differently wrapped and
unwrapped.  Under the startswith/rfind variant, the payload
"```\n\x7b"elements": []\x7d\n```" parses (its own fences are stripped, the
inner object validates) while the same payload wrapped in ```json fences
fails to parse (the extraction recovers the payload verbatim, which is not
JSON).  Under the in/find variant, the valid JSON payload ["```"] parses
unwrapped but its ```json-wrapped form is cut at the fence inside the string
literal and fails to parse. -/
theorem c9_counterexample :
    ((parse_vision_response
        (wrapJsonFence "```\n\x7b\"elements\": []\x7d\n```")).isOk = false
      ∧ (parse_vision_response "```\n\x7b\"elements\": []\x7d\n```").isOk = true)
  ∧ ((jsonLoads (stripFencesIF (wrapJsonFence "[\"```\"]"))).isSome = false
      ∧ (jsonLoads (stripFencesIF "[\"```\"]")).isSome = true) :=
  ⟨⟨rfl, rfl⟩, ⟨rfl, rfl⟩⟩

/-- Claim C9 (amended): for every payload that contains no ``` fence marker
of its own and no leading or trailing whitespace, a response wrapping it in
a fenced code block — with or without the json language tag — is
post-processed to exactly the unwrapped payload by both strip variants, so
both parsing pipelines give the same result wrapped as unwrapped.  (The
restriction is what the counterexample forces: a payload containing a fence
marker can parse differently.) -/
theorem c9_fenced_parse_equiv (payload : String)
    (hNo : pyContains payload "```" = false)
    (hStr : pyStrip payload = payload) :
    (stripFencesSW (wrapJsonFence payload) = stripFencesSW payload
      ∧ stripFencesSW (wrapPlainFence payload) = stripFencesSW payload)
  ∧ (stripFencesIF (wrapJsonFence payload) = stripFencesIF payload
      ∧ stripFencesIF (wrapPlainFence payload) = stripFencesIF payload)
  ∧ (parse_vision_response (wrapJsonFence payload) = parse_vision_response payload
      ∧ parse_vision_response (wrapPlainFence payload) = parse_vision_response payload
      ∧ jsonLoads (stripFencesIF (wrapJsonFence payload))
          = jsonLoads (stripFencesIF payload)
      ∧ jsonLoads (stripFencesIF (wrapPlainFence payload))
          = jsonLoads (stripFencesIF payload)) := by
  have hswj : stripFencesSW (wrapJsonFence payload) = stripFencesSW payload := by
    rw [stripSW_wrapJson payload hStr, stripSW_no_fence payload hNo]
  have hswp : stripFencesSW (wrapPlainFence payload) = stripFencesSW payload := by
    rw [stripSW_wrapPlain payload hStr, stripSW_no_fence payload hNo]
  have hifj : stripFencesIF (wrapJsonFence payload) = stripFencesIF payload := by
    rw [stripIF_wrapJson payload hNo hStr, stripIF_no_fence payload hNo]
  have hifp : stripFencesIF (wrapPlainFence payload) = stripFencesIF payload := by
    rw [stripIF_wrapPlain payload hNo hStr, stripIF_no_fence payload hNo]
  refine ⟨⟨hswj, hswp⟩, ⟨hifj, hifp⟩, ?_, ?_, by rw [hifj], by rw [hifp]⟩
  · unfold parse_vision_response
    rw [hswj]
  · unfold parse_vision_response
    rw [hswp]

/-- Witness for the amended C9 at the concrete payload
`\x7b"elements": []\x7d`. -/
theorem c9_fenced_parse_equiv_witness :
    (pyContains "\x7b\"elements\": []\x7d" "```" = false
      ∧ pyStrip "\x7b\"elements\": []\x7d" = "\x7b\"elements\": []\x7d")
  ∧ stripFencesSW (wrapJsonFence "\x7b\"elements\": []\x7d")
      = stripFencesSW "\x7b\"elements\": []\x7d" :=
  ⟨⟨rfl, rfl⟩,
   (c9_fenced_parse_equiv "\x7b\"elements\": []\x7d" rfl rfl).1.1⟩
